import Mathlib

/-!
Shallow embedding of the SplatVote voting backend core
(`src/vote_api/services/statistics.py`, `services/elo.py`,
`services/fingerprint.py`, `routes/votes.py`, `routes/results.py`,
`models/enums.py`, `models/database.py`) together with proofs about it.

Modelling conventions:
* Python `float` arithmetic is modelled by exact rational arithmetic (`ℚ`).
  Where the code calls `math.sqrt` the embedded function takes the square
  root value as an explicit parameter, and theorems constrain that
  parameter by the defining inequality of the square root.
* Python `round(x, 2)` (round-half-to-even at two decimals) is modelled by
  `round2`.
* Python `10 ** e` for rational `e` is modelled by `pow10exact`, which is
  defined exactly when the exponent is an integer (the only case in which
  the real power of a rational base is needed by any claim).
* Database rows live in explicit list-based states; SQLAlchemy sessions
  become state-passing, and `commit` either succeeds or (for the modelled
  concurrent-duplicate scenario) fails with an integrity error.
* Python dictionaries are modelled by insertion-ordered association lists.
-/

namespace SplatVote

/-- Round-half-to-even to an integer, the rounding mode of Python `round`. -/
def roundHalfEven (x : ℚ) : ℤ :=
  if x - ⌊x⌋ < 1/2 then ⌊x⌋
  else if 1/2 < x - ⌊x⌋ then ⌊x⌋ + 1
  else if ⌊x⌋ % 2 = 0 then ⌊x⌋ else ⌊x⌋ + 1

/-- Python `round(x, 2)`: round half to even at two decimal places. -/
def round2 (x : ℚ) : ℚ := (roundHalfEven (100 * x) : ℚ) / 100

/-! ### services/statistics.py -/

/-- Embeds `calculate_percentage`: 0 if `total == 0`, else `votes / total * 100`. -/
def calculate_percentage (votes total : ℕ) : ℚ :=
  if total = 0 then 0 else (votes : ℚ) / total * 100

/-- Embeds the z-score lookup `z_scores.get(confidence, 1.96)` with
`z_scores = {0.90: 1.645, 0.95: 1.96, 0.99: 2.576}`. -/
def z_lookup (confidence : ℚ) : ℚ :=
  if confidence = 9/10 then 1645/1000
  else if confidence = 19/20 then 196/100
  else if confidence = 99/100 then 2576/1000
  else 196/100

/-- The radicand `(p * (1 - p) + z**2 / (4 * total)) / total` whose square
root the code takes via `math.sqrt`. -/
def wilson_radicand (successes total : ℕ) (z : ℚ) : ℚ :=
  let p : ℚ := (successes : ℚ) / total
  (p * (1 - p) + z^2 / (4 * total)) / total

/-- Embeds `wilson_confidence_interval`.  `sqrtRadicand` stands for the value
`math.sqrt(wilson_radicand successes total z)` computed by the code; theorems
constrain it by `0 ≤ sqrtRadicand` and an inequality against the radicand. -/
def wilson_confidence_interval (successes total : ℕ) (confidence : ℚ)
    (sqrtRadicand : ℚ) : ℚ × ℚ :=
  if total = 0 then (0, 0) else
  let z := z_lookup confidence
  let p : ℚ := (successes : ℚ) / total
  let denominator : ℚ := 1 + z^2 / total
  let center := (p + z^2 / (2 * total)) / denominator
  let spread := z * sqrtRadicand / denominator
  let lower := max 0 (center - spread) * 100
  let upper := min 1 (center + spread) * 100
  (round2 lower, round2 upper)

/-- Embeds `calculate_average_rank`: mean of the non-`None` entries rounded
to two decimals, `None` when there are no valid entries. -/
def calculate_average_rank (rankings : List (Option ℤ)) : Option ℚ :=
  let valid_ranks := rankings.filterMap id
  if valid_ranks.isEmpty then none
  else some (round2 (((valid_ranks.sum : ℤ) : ℚ) / (valid_ranks.length : ℚ)))

/-- Key lookup in an insertion-ordered association list (first match). -/
def assoc_find {κ β : Type} [DecidableEq κ] (d : List (κ × β)) (k : κ) : Option β :=
  (d.find? (fun kv => kv.1 = k)).map (·.2)

/-- Update every entry of key `k` by `f` (the keys of a Python dict are
unique, so at most one entry is affected in any state the code builds). -/
def assoc_modify {κ β : Type} [DecidableEq κ] (d : List (κ × β)) (k : κ)
    (f : β → β) : List (κ × β) :=
  d.map (fun kv => if kv.1 = k then (k, f kv.2) else kv)

/-- Python dict store `d[k] = f(d.get(k, dflt))`: modify in place when the
key exists, otherwise append the new entry. -/
def assoc_upsert {κ β : Type} [DecidableEq κ] (d : List (κ × β)) (k : κ)
    (f : β → β) (dflt : β) : List (κ × β) :=
  if d.any (fun kv => kv.1 = k) then assoc_modify d k f
  else d ++ [(k, f dflt)]

/-- Python dict read `d.get(k, default)`. -/
def dict_get (d : List (ℤ × ℤ)) (k default : ℤ) : ℤ :=
  (assoc_find d k).getD default

/-- Python dict write `d[k] = v` over an insertion-ordered association list. -/
def dict_set (d : List (ℤ × ℤ)) (k v : ℤ) : List (ℤ × ℤ) :=
  assoc_upsert d k (fun _ => v) 0

/-- Embeds `borda_count`: each ranking contributes
`len(ranking) - 1 - position` points to the item at `position`; the
`num_items` argument appears in the source signature but is never read. -/
def borda_count (rankings : List (List ℤ)) (num_items : ℕ) : List (ℤ × ℤ) :=
  rankings.foldl (fun scores ranking =>
    ranking.enum.foldl (fun scores pi =>
      let points : ℤ := (ranking.length : ℤ) - 1 - (pi.1 : ℤ)
      dict_set scores pi.2 (dict_get scores pi.2 0 + points)) scores) []

/-! ### services/elo.py -/

/-- Exact model of the Python float power `10 ** e`, defined when the
exponent is an integer (the only case any claim evaluates). -/
def pow10exact (e : ℚ) : Option ℚ :=
  if e.den = 1 then some ((10 : ℚ) ^ e.num) else none

/-- Embeds `calculate_elo_update`.  `expected_winner` is
`1 / (1 + 10 ** ((loser_rating - winner_rating) / 400))`; both new ratings
are rounded to two decimals. -/
def calculate_elo_update (winner_rating loser_rating k_factor : ℚ) :
    Option (ℚ × ℚ) :=
  (pow10exact ((loser_rating - winner_rating) / 400)).map fun t =>
    let expected_winner := 1 / (1 + t)
    let expected_loser := 1 - expected_winner
    let new_winner := winner_rating + k_factor * (1 - expected_winner)
    let new_loser := loser_rating + k_factor * (0 - expected_loser)
    (round2 new_winner, round2 new_loser)

/-- The `elo_ratings` table: rows keyed by `(category_id, item_id)` holding
`(rating, games_played)`. -/
abbrev EloState := List ((ℤ × ℤ) × ℚ × ℕ)

/-- Row lookup for `EloRating` by `(category_id, item_id)`. -/
def eloLookup (st : EloState) (category_id item_id : ℤ) : Option (ℚ × ℕ) :=
  assoc_find st (category_id, item_id)

/-- Embeds `EloService.get_or_create_rating`: return the existing row, or
insert a fresh row at `initial_rating` with 0 games. -/
def get_or_create_rating (st : EloState) (category_id item_id : ℤ)
    (initial_rating : ℚ) : (ℚ × ℕ) × EloState :=
  match eloLookup st category_id item_id with
  | some r => (r, st)
  | none =>
    ((initial_rating, 0), st ++ [((category_id, item_id), initial_rating, 0)])

/-- In-place mutation of the `EloRating` row for `(category_id, item_id)`,
modelling attribute assignment on the ORM object. -/
def eloModify (st : EloState) (category_id item_id : ℤ)
    (f : ℚ × ℕ → ℚ × ℕ) : EloState :=
  assoc_modify st (category_id, item_id) f

/-- Embeds `EloService.record_match` (defaults `initial_rating = 1500`,
`k_factor = 32`): load-or-create both rows, compute the update from the
ratings read before any mutation, then mutate winner then loser, each
incrementing its current `games_played` by 1. -/
def record_match (st : EloState) (category_id winner_id loser_id : ℤ)
    (initial_rating k_factor : ℚ) : Option ((ℚ × ℚ) × EloState) :=
  let wpair := get_or_create_rating st category_id winner_id initial_rating
  let lpair := get_or_create_rating wpair.2 category_id loser_id initial_rating
  (calculate_elo_update wpair.1.1 lpair.1.1 k_factor).map fun nr =>
    let st3 := eloModify lpair.2 category_id winner_id (fun wg => (nr.1, wg.2 + 1))
    let st4 := eloModify st3 category_id loser_id (fun lg => (nr.2, lg.2 + 1))
    (nr, st4)

/-! ### services/fingerprint.py -/

/-- Whitespace stripped by CPython's integer parser (modelled for code
points below 0x100). -/
def isPySpace (c : Char) : Bool :=
  (9 ≤ c.toNat && c.toNat ≤ 13) || c.toNat = 32 ||
  (28 ≤ c.toNat && c.toNat ≤ 31) || c.toNat = 133 || c.toNat = 160

/-- Hexadecimal digit as accepted by `int(s, 16)`: `0`-`9` (code points
48-57), `a`-`f` (97-102), `A`-`F` (65-70). -/
def isHexDigitPy (c : Char) : Bool :=
  (48 ≤ c.toNat && c.toNat ≤ 57) || (97 ≤ c.toNat && c.toNat ≤ 102) ||
  (65 ≤ c.toNat && c.toNat ≤ 70)

/-- Strip leading and trailing parser whitespace. -/
def stripPySpaces (l : List Char) : List Char :=
  ((l.dropWhile isPySpace).reverse.dropWhile isPySpace).reverse

/-- Drop one optional leading sign, as the CPython integer parser does. -/
def dropSign : List Char → List Char
  | c :: rest => if c = '+' || c = '-' then rest else c :: rest
  | [] => []

/-- Recognize and drop a leading `0x`/`0X` base prefix. -/
def dropHexBase : List Char → Bool × List Char
  | c0 :: c1 :: rest =>
    if c0 = '0' && (c1 = 'x' || c1 = 'X') then (true, rest)
    else (false, c0 :: c1 :: rest)
  | l => (false, l)

/-- Continuation of a digit run: hex digits with single underscores allowed
only between digits (no trailing, no doubled underscore). -/
def hexTailRun : List Char → Bool
  | [] => true
  | c :: rest =>
    if c = '_' then
      match rest with
      | [] => false
      | d :: rest2 => isHexDigitPy d && hexTailRun rest2
    else isHexDigitPy c && hexTailRun rest

/-- A non-empty run of hex digits starting with a digit. -/
def hexDigitsRun : List Char → Bool
  | [] => false
  | c :: rest => isHexDigitPy c && hexTailRun rest

/-- The digit part after the optional base prefix: when a `0x`/`0X` prefix
was present a single leading underscore is additionally allowed. -/
def afterBase (pref : Bool × List Char) : Bool :=
  if pref.1 then
    match pref.2 with
    | '_' :: rest => hexDigitsRun rest
    | l3 => hexDigitsRun l3
  else hexDigitsRun pref.2

/-- Models success of CPython `int(s, 16)`: strip whitespace, one optional
sign, optional `0x`/`0X` prefix (after which a single leading underscore is
allowed), then a valid digit run. -/
def pyIntHexOk (l : List Char) : Bool :=
  afterBase (dropHexBase (dropSign (stripPySpaces l)))

/-- Embeds `validate_fingerprint`: length exactly 64 and `int(fingerprint, 16)`
succeeds. -/
def validate_fingerprint (fingerprint : String) : Bool :=
  fingerprint.length = 64 && pyIntHexOk fingerprint.data

/-- Embeds `get_vote_identity`: the fingerprint is used as-is (not re-hashed)
and paired with the server-computed ip hash. -/
def get_vote_identity (ip_hash fingerprint : String) : String × String :=
  (fingerprint, ip_hash)

/-! ### `AntiManipulationService` (services/fingerprint.py) -/

/-- A Redis client: each primitive either answers or raises `redis.RedisError`
(carried as a message string). -/
structure RedisClient where
  sadd : String → String → Except String ℕ
  expire : String → ℕ → Except String Bool
  scard : String → Except String ℕ
  hincrby : String → String → ℤ → Except String ℤ

/-- The body of `check_suspicious_patterns` inside the `try` block. -/
def check_suspicious_run (r : RedisClient) (maxFingerprintsPerIp maxIpsPerFingerprint : ℕ)
    (ip_hash fingerprint : String) : Except String (Bool × Option String) := do
  let ipFingerprintsKey := "vote:anti:ip:" ++ ip_hash ++ ":fps"
  let _ ← r.sadd ipFingerprintsKey fingerprint
  let _ ← r.expire ipFingerprintsKey 3600
  let uniqueFps ← r.scard ipFingerprintsKey
  if uniqueFps ≠ 0 && decide (maxFingerprintsPerIp < uniqueFps) then
    return (true, some "Too many different devices from same IP")
  let fpIpsKey := "vote:anti:fp:" ++ fingerprint ++ ":ips"
  let _ ← r.sadd fpIpsKey ip_hash
  let _ ← r.expire fpIpsKey 86400
  let uniqueIps ← r.scard fpIpsKey
  if uniqueIps ≠ 0 && decide (maxIpsPerFingerprint < uniqueIps) then
    return (true, some "Device seen from too many different IPs")
  return (false, none)

/-- Embeds `check_suspicious_patterns`: the `try` body with
`except redis.RedisError: return (False, None)`. -/
def check_suspicious_patterns (r : RedisClient) (maxFingerprintsPerIp maxIpsPerFingerprint : ℕ)
    (ip_hash fingerprint : String) : Bool × Option String :=
  match check_suspicious_run r maxFingerprintsPerIp maxIpsPerFingerprint ip_hash fingerprint with
  | .ok v => v
  | .error _ => (false, none)

/-- The body of `record_vote_attempt` inside the `try` block. -/
def record_attempt_run (r : RedisClient) (ip_hash fingerprint : String)
    (category_id : ℤ) (success : Bool) (timestamp : ℕ) : Except String Unit := do
  let key := "vote:attempts:" ++ toString (timestamp / 3600)
  let field := ip_hash ++ ":" ++ fingerprint ++ ":" ++ toString category_id ++ ":" ++ toString success
  let _ ← r.hincrby key field 1
  let _ ← r.expire key (86400 * 7)
  return ()

/-- Embeds `record_vote_attempt`: the `try` body with
`except redis.RedisError: pass`; it always returns normally. -/
def record_vote_attempt (r : RedisClient) (ip_hash fingerprint : String)
    (category_id : ℤ) (success : Bool) (timestamp : ℕ) : Unit :=
  match record_attempt_run r ip_hash fingerprint category_id success timestamp with
  | .ok _ => ()
  | .error _ => ()

/-- A Redis client whose backing store is down: every primitive raises. -/
def failingRedis : RedisClient :=
  ⟨fun _ _ => .error "down", fun _ _ => .error "down",
   fun _ => .error "down", fun _ _ _ => .error "down"⟩

/-! ### models/enums.py and models/database.py -/

/-- Attribute access on the `ComparisonMode` enum class, returning the
member's `.value`.  Faithful to `models/enums.py`, which declares exactly
the members `SINGLE_CHOICE`, `ELO_TOURNAMENT` and `RANKED_LIST`; any other
attribute access raises `AttributeError` (modelled as `none`). -/
def comparisonModeAttr (name : String) : Option String :=
  if name = "SINGLE_CHOICE" then some "single_choice"
  else if name = "ELO_TOURNAMENT" then some "elo_tournament"
  else if name = "RANKED_LIST" then some "ranked_list"
  else none

/-- A `Category` row.  `tier_options` models `settings.get("tier_options")`:
`none` when the key is absent. -/
structure CategoryRow where
  id : ℤ
  comparison_mode : String
  is_active : Bool
  tier_options : Option (List String)
deriving DecidableEq

/-- A `Vote` row. -/
structure VoteRow where
  id : ℕ
  category_id : ℤ
  fingerprint_hash : String
  ip_hash : String
deriving DecidableEq

/-- A `VoteChoice` row; `rank` is the 1-based rank in ranked_list mode, the
tier index in tournament_tiers mode, `none` otherwise. -/
structure VoteChoiceRow where
  vote_id : ℕ
  item_id : ℤ
  rank : Option ℤ
deriving DecidableEq

/-- A `Comment` row. -/
structure CommentRow where
  vote_id : ℕ
  content : String
deriving DecidableEq

/-- The stored state read and written by the vote endpoints. -/
structure DB where
  categories : List CategoryRow
  category_items : List (ℤ × ℤ)
  votes : List VoteRow
  vote_choices : List VoteChoiceRow
  comments : List CommentRow
  elo_ratings : EloState
  next_vote_id : ℕ
deriving DecidableEq

/-- The request body of the vote endpoints. -/
structure VoteRequest where
  category_id : ℤ
  fingerprint : String
  choices : List ℤ
  comment : Option String
deriving DecidableEq

/-- Outcome of a vote endpoint call.  `httpError` is a raised
`HTTPException`; `attrError` is an uncaught Python `AttributeError`
(an HTTP 500 to the client); `integrityError` is an uncaught database
unique-constraint failure at commit; `nonrationalPow` is a modelling
artifact marking a float power this rational embedding cannot evaluate. -/
inductive SubmitOutcome where
  | success (vote_id : ℕ)
  | httpError (status : ℕ) (detail : String)
  | attrError (missing : String)
  | integrityError
  | nonrationalPow
deriving DecidableEq

/-- Python `choices[::2]`: elements at even indices. -/
def everySecond : List ℤ → List ℤ
  | [] => []
  | [a] => [a]
  | a :: _ :: rest => a :: everySecond rest

/-- Python `choices[1::2]`: elements at odd indices. -/
def everySecondFromOne : List ℤ → List ℤ
  | [] => []
  | [_] => []
  | _ :: b :: rest => b :: everySecondFromOne rest

/-- Python `[(choices[i], choices[i+1]) for i in range(0, len, 2)]` on an
even-length list. -/
def pairUp : List ℤ → List (ℤ × ℤ)
  | a :: b :: rest => (a, b) :: pairUp rest
  | _ => []

/-- `num_tiers = len(tier_options) if tier_options else 7` applied to
`settings.get("tier_options", [])` (an absent key and a present empty list
both fall back to 7). -/
def numTiers (tier_options : Option (List String)) : ℤ :=
  let topts := tier_options.getD []
  if topts.isEmpty then 7 else (topts.length : ℤ)

/-! ### routes/votes.py -/

/-- Embeds `submit_vote`.  `ip_hash` is the hash computed by
`get_vote_identity`; `suspicious` is the answer of the abuse-detection
collaborator; `concurrent_duplicate` models a concurrent writer having
inserted a conflicting `(category_id, fingerprint_hash)` row, so that the
storage layer's unique-constraint check fails at `session.commit()`.  All
state changes become visible only at the successful commit; any raise
before commit leaves the stored state unchanged (rollback). -/
def submit_vote (req : VoteRequest) (ip_hash : String)
    (suspicious : Bool × Option String) (concurrent_duplicate : Bool)
    (db : DB) : SubmitOutcome × DB :=
  if ¬ validate_fingerprint req.fingerprint then
    (.httpError 400 "Invalid fingerprint format", db)
  else
    let identity := get_vote_identity ip_hash req.fingerprint
    let fingerprint_hash := identity.1
    if suspicious.1 then
      (.httpError 429 ("Suspicious activity: " ++ suspicious.2.getD "None"), db)
    else
      match db.categories.find? (fun c => c.id = req.category_id) with
      | none => (.httpError 404 "Category not found", db)
      | some category =>
        if ¬ category.is_active then
          (.httpError 400 "Category is not active", db)
        else if db.votes.any (fun v =>
            v.category_id = req.category_id && v.fingerprint_hash = fingerprint_hash) then
          (.httpError 409 "Already voted in this category", db)
        else
          let valid_item_ids :=
            (db.category_items.filter (fun ci => ci.1 = req.category_id)).map (·.2)
          match comparisonModeAttr "TOURNAMENT_TIERS" with
          | none => (.attrError "ComparisonMode.TOURNAMENT_TIERS", db)
          | some tiers_mode =>
            let item_ids_to_check :=
              if category.comparison_mode = tiers_mode then everySecond req.choices
              else req.choices
            match item_ids_to_check.find? (fun i => ¬ valid_item_ids.contains i) with
            | some bad =>
              (.httpError 400 ("Item " ++ toString bad ++ " is not valid for this category"), db)
            | none =>
              let shapeError : Option String :=
                if category.comparison_mode = "single_choice" then
                  if req.choices.length ≠ 1 then
                    some "Single choice mode requires exactly one choice"
                  else none
                else if category.comparison_mode = "elo_tournament" then
                  if req.choices.length ≠ 2 then
                    some "ELO tournament mode requires exactly two choices (winner, loser)"
                  else if req.choices.getD 0 0 = req.choices.getD 1 0 then
                    some "Winner and loser must be different items"
                  else none
                else if category.comparison_mode = "ranked_list" then
                  if req.choices.length < 2 then
                    some "Ranked list mode requires at least two choices"
                  else none
                else if category.comparison_mode = tiers_mode then
                  if req.choices.length % 2 ≠ 0 then
                    some "Tournament tiers mode requires pairs of (item_id, tier_index)"
                  else if req.choices.length < 2 then
                    some "Tournament tiers mode requires at least one vote"
                  else
                    match (everySecondFromOne req.choices).find?
                        (fun t => t < 0 || numTiers category.tier_options ≤ t) with
                    | some t => some ("Invalid tier index: " ++ toString t)
                    | none => none
                else none
              match shapeError with
              | some msg => (.httpError 400 msg, db)
              | none =>
                let vote : VoteRow :=
                  ⟨db.next_vote_id, req.category_id, fingerprint_hash, identity.2⟩
                let new_choices : List VoteChoiceRow :=
                  if category.comparison_mode = tiers_mode then
                    (pairUp req.choices).map (fun p => ⟨vote.id, p.1, some p.2⟩)
                  else
                    req.choices.enum.map (fun pi =>
                      ⟨vote.id, pi.2,
                        if category.comparison_mode = "ranked_list" then
                          some ((pi.1 : ℤ) + 1)
                        else none⟩)
                let eloStep : Option EloState :=
                  if category.comparison_mode = "elo_tournament" then
                    (record_match db.elo_ratings category.id
                      (req.choices.getD 0 0) (req.choices.getD 1 0) 1500 32).map (·.2)
                  else some db.elo_ratings
                match eloStep with
                | none => (.nonrationalPow, db)
                | some elo2 =>
                  let new_comments : List CommentRow :=
                    match req.comment with
                    | some c => if c = "" then [] else [⟨vote.id, c⟩]
                    | none => []
                  if concurrent_duplicate then (.integrityError, db)
                  else
                    (.success vote.id,
                      { db with
                          votes := db.votes ++ [vote]
                          vote_choices := db.vote_choices ++ new_choices
                          comments := db.comments ++ new_comments
                          elo_ratings := elo2
                          next_vote_id := db.next_vote_id + 1 })

/-- Embeds `upsert_vote`: find-or-create the voter's `Vote` row for a
tournament_tiers category, then insert-or-update the single `VoteChoice`
for the given item.  Abuse detection is consulted only when a new `Vote`
row would be created. -/
def upsert_vote (req : VoteRequest) (ip_hash : String)
    (suspicious : Bool × Option String) (db : DB) : SubmitOutcome × DB :=
  if ¬ validate_fingerprint req.fingerprint then
    (.httpError 400 "Invalid fingerprint format", db)
  else
    let identity := get_vote_identity ip_hash req.fingerprint
    let fingerprint_hash := identity.1
    match db.categories.find? (fun c => c.id = req.category_id) with
    | none => (.httpError 404 "Category not found", db)
    | some category =>
      if ¬ category.is_active then
        (.httpError 400 "Category is not active", db)
      else
        match comparisonModeAttr "TOURNAMENT_TIERS" with
        | none => (.attrError "ComparisonMode.TOURNAMENT_TIERS", db)
        | some tiers_mode =>
          if category.comparison_mode ≠ tiers_mode then
            (.httpError 400 "Upsert only supported for tournament_tiers mode", db)
          else if req.choices.length ≠ 2 then
            (.httpError 400 "Upsert requires exactly [item_id, tier_index]", db)
          else
            let item_id := req.choices.getD 0 0
            let tier_index := req.choices.getD 1 0
            let valid_item_ids :=
              (db.category_items.filter (fun ci => ci.1 = req.category_id)).map (·.2)
            if ¬ valid_item_ids.contains item_id then
              (.httpError 400 ("Item " ++ toString item_id ++ " is not valid for this category"), db)
            else if tier_index < 0 || numTiers category.tier_options ≤ tier_index then
              (.httpError 400 ("Invalid tier index: " ++ toString tier_index), db)
            else
              let existing := db.votes.find? (fun v =>
                v.category_id = req.category_id && v.fingerprint_hash = fingerprint_hash)
              match existing with
              | some vote =>
                let db2 := upsertChoice db vote.id item_id tier_index
                (.success vote.id, db2)
              | none =>
                if suspicious.1 then
                  (.httpError 429 ("Suspicious activity: " ++ suspicious.2.getD "None"), db)
                else
                  let vote : VoteRow :=
                    ⟨db.next_vote_id, req.category_id, fingerprint_hash, identity.2⟩
                  let db1 := { db with
                    votes := db.votes ++ [vote]
                    next_vote_id := db.next_vote_id + 1 }
                  let db2 := upsertChoice db1 vote.id item_id tier_index
                  (.success vote.id, db2)
where
  /-- Insert the `VoteChoice` for `(vote_id, item_id)` or update its rank. -/
  upsertChoice (db : DB) (vote_id : ℕ) (item_id tier_index : ℤ) : DB :=
    if db.vote_choices.any (fun ch => ch.vote_id = vote_id && ch.item_id = item_id) then
      { db with vote_choices := db.vote_choices.map (fun ch =>
          if ch.vote_id = vote_id && ch.item_id = item_id then
            { ch with rank := some tier_index }
          else ch) }
    else
      { db with vote_choices := db.vote_choices ++ [⟨vote_id, item_id, some tier_index⟩] }

/-! ### routes/results.py -/

/-- `defaultdict(list)` append `m[k].append(v)` over an insertion-ordered
association list. -/
def multidict_append (m : List (ℤ × List ℤ)) (k v : ℤ) : List (ℤ × List ℤ) :=
  assoc_upsert m k (fun old => old ++ [v]) []

/-- Read of a `defaultdict(list)` entry (`.get(k, [])`). -/
def multidict_get (m : List (ℤ × List ℤ)) (k : ℤ) : List ℤ :=
  (assoc_find m k).getD []

/-- One entry of the ranked_list results payload (the fields the ranked
aggregation computes). -/
structure RankedResult where
  item_id : ℤ
  vote_count : ℕ
  percentage : ℚ
  average_rank : Option ℚ
deriving DecidableEq

/-- The sort key `x.average_rank or float("inf")` of the ranked results:
`None` and `0.0` are both falsy in Python, so both map to plus infinity
(represented by `none`). -/
def ranked_sort_key (r : RankedResult) : Option ℚ :=
  match r.average_rank with
  | none => none
  | some a => if a = 0 then none else some a

/-- Comparison on sort keys where `none` plays plus infinity. -/
def optQLe : Option ℚ → Option ℚ → Bool
  | _, none => true
  | none, some _ => false
  | some a, some b => decide (a ≤ b)

/-- The loop body of `_calculate_ranked_results`: the result record built
for one configured item. -/
def ranked_entry (item_rankings : List (ℤ × List ℤ)) (total_votes : ℕ)
    (item_id : ℤ) : RankedResult :=
  let ranks := multidict_get item_rankings item_id
  let average_rank := calculate_average_rank (ranks.map some)
  let first_place_count := (ranks.filter (fun r => r = 1)).length
  let percentage := calculate_percentage first_place_count total_votes
  { item_id := item_id
    vote_count := ranks.length
    percentage := round2 percentage
    average_rank := average_rank }

/-- Embeds `_calculate_ranked_results`.  `items` is the category's
configured item ids in lookup order; `rows` is the queried
`(item_id, rank)` list of non-null-ranked choices of the category's votes;
`total_votes` counts the category's `Vote` rows.  The final sort models
Python's stable `list.sort` by `average_rank or float("inf")`. -/
def calculate_ranked_results (items : List ℤ) (rows : List (ℤ × ℤ))
    (total_votes : ℕ) : List RankedResult :=
  let item_rankings := rows.foldl (fun m r => multidict_append m r.1 r.2) []
  (items.map (ranked_entry item_rankings total_votes)).mergeSort
    (fun a b => optQLe (ranked_sort_key a) (ranked_sort_key b))

/-- An item as consumed by the tiers aggregation: id, name, and the
`display_name` entry of its metadata (if any). -/
structure TierItem where
  id : ℤ
  name : String
  display_name : Option String
deriving DecidableEq

/-- One entry of the tournament_tiers results payload. -/
structure TierResult where
  item_id : ℤ
  item_name : String
  vote_count : ℕ
  percentage : ℚ
  average_rank : Option ℚ
  tier_distribution : List (String × ℤ)
deriving DecidableEq

/-- The sort key of the tiers results:
`x.average_rank if x.average_rank is not None else float("inf")`. -/
def tier_sort_key (r : TierResult) : Option ℚ := r.average_rank

/-- The loop body of `_calculate_tournament_tiers_results`: the result
record built for one configured item. -/
def tier_entry (item_tiers : List (ℤ × List ℤ)) (total_votes : ℕ)
    (tier_options : List String) (item : TierItem) : TierResult :=
  let tiers := multidict_get item_tiers item.id
  let tier_counts := tiers.foldl (fun d t => dict_set d t (dict_get d t 0 + 1)) []
  let tier_distribution := tier_options.enum.map
    (fun p => (p.2, dict_get tier_counts (p.1 : ℤ) 0))
  let average_tier : Option ℚ :=
    if tiers.isEmpty then none
    else
      let known_tiers := tiers.filter (fun t => t < (tier_options.length : ℤ) - 1)
      if known_tiers.isEmpty then none
      else some (round2 (((known_tiers.sum : ℤ) : ℚ) / (known_tiers.length : ℚ)))
  { item_id := item.id
    item_name := item.display_name.getD item.name
    vote_count := tiers.length
    percentage := round2 (calculate_percentage tiers.length total_votes)
    average_rank := average_tier
    tier_distribution := tier_distribution }

/-- Embeds `_calculate_tournament_tiers_results`.  `settings_tier_options`
models `settings.get("tier_options", [...default 7 labels...])`: the default
list is used only when the key is absent. -/
def calculate_tournament_tiers_results (items : List TierItem)
    (rows : List (ℤ × ℤ)) (total_votes : ℕ)
    (settings_tier_options : Option (List String)) : List TierResult :=
  let tier_options := settings_tier_options.getD ["X", "S+", "S", "A", "B", "C", "D"]
  let item_tiers := rows.foldl (fun m r => multidict_append m r.1 r.2) []
  (items.map (tier_entry item_tiers total_votes tier_options)).mergeSort
    (fun a b => optQLe (tier_sort_key a) (tier_sort_key b))

/-! ## Supporting lemmas -/

theorem fract_sub_bounds (x : ℚ) : 0 ≤ x - ⌊x⌋ ∧ x - ⌊x⌋ < 1 := by
  have h1 : (⌊x⌋ : ℚ) ≤ x := Int.floor_le x
  have h2 : x < ⌊x⌋ + 1 := Int.lt_floor_add_one x
  constructor <;> linarith

theorem roundHalfEven_bounds (x : ℚ) :
    x - 1/2 ≤ (roundHalfEven x : ℚ) ∧ (roundHalfEven x : ℚ) ≤ x + 1/2 := by
  obtain ⟨h0, h1⟩ := fract_sub_bounds x
  unfold roundHalfEven
  split_ifs with hc1 hc2 hc3 <;> constructor <;> push_cast <;> linarith

theorem roundHalfEven_floor_le (x : ℚ) : ⌊x⌋ ≤ roundHalfEven x := by
  unfold roundHalfEven
  split_ifs <;> omega

theorem roundHalfEven_le_floor_succ (x : ℚ) : roundHalfEven x ≤ ⌊x⌋ + 1 := by
  unfold roundHalfEven
  split_ifs <;> omega

theorem roundHalfEven_mono {x y : ℚ} (h : x ≤ y) :
    roundHalfEven x ≤ roundHalfEven y := by
  have hf : ⌊x⌋ ≤ ⌊y⌋ := Int.floor_le_floor h
  rcases eq_or_lt_of_le hf with heq | hlt
  · unfold roundHalfEven
    rw [heq]
    have hr : x - (⌊y⌋ : ℚ) ≤ y - (⌊y⌋ : ℚ) := by linarith
    split_ifs <;> first | omega | linarith
  · have l1 := roundHalfEven_le_floor_succ x
    have l2 := roundHalfEven_floor_le y
    omega

theorem round2_le_add (x : ℚ) : round2 x ≤ x + 1/200 := by
  have h := (roundHalfEven_bounds (100 * x)).2
  unfold round2
  rw [div_le_iff₀ (by norm_num : (0:ℚ) < 100)]
  linarith

theorem sub_le_round2 (x : ℚ) : x - 1/200 ≤ round2 x := by
  have h := (roundHalfEven_bounds (100 * x)).1
  unfold round2
  rw [le_div_iff₀ (by norm_num : (0:ℚ) < 100)]
  linarith

theorem round2_mono {x y : ℚ} (h : x ≤ y) : round2 x ≤ round2 y := by
  have h1 : roundHalfEven (100 * x) ≤ roundHalfEven (100 * y) :=
    roundHalfEven_mono (by linarith)
  unfold round2
  have h2 : ((roundHalfEven (100 * x) : ℚ)) ≤ (roundHalfEven (100 * y) : ℚ) := by
    exact_mod_cast h1
  linarith

theorem round2_zero : round2 0 = 0 := by norm_num [round2, roundHalfEven]

theorem round2_hundred : round2 100 = 100 := by norm_num [round2, roundHalfEven]

theorem round2_one : round2 1 = 1 := by norm_num [round2, roundHalfEven]

theorem assoc_find_eq_none_of_not_any {κ β : Type} [DecidableEq κ]
    {d : List (κ × β)} {k : κ} (h : d.any (fun kv => kv.1 = k) = false) :
    assoc_find d k = none := by
  unfold assoc_find
  cases hf : d.find? (fun kv => kv.1 = k) with
  | none => rfl
  | some kv =>
    exfalso
    have hp := List.find?_some hf
    have hmem := List.mem_of_find?_eq_some hf
    have : d.any (fun kv => kv.1 = k) = true := by
      simp only [List.any_eq_true]
      exact ⟨kv, hmem, hp⟩
    simp [this] at h

theorem assoc_find_isSome_of_any {κ β : Type} [DecidableEq κ]
    {d : List (κ × β)} {k : κ} (h : d.any (fun kv => kv.1 = k) = true) :
    (assoc_find d k).isSome = true := by
  unfold assoc_find
  simp only [List.any_eq_true] at h
  obtain ⟨kv, hm, hp⟩ := h
  have : (d.find? (fun kv => kv.1 = k)).isSome = true :=
    List.find?_isSome.mpr ⟨kv, hm, hp⟩
  cases hf : d.find? (fun kv => kv.1 = k) with
  | none => rw [hf] at this; simp at this
  | some kv0 => simp

theorem assoc_find_modify {κ β : Type} [DecidableEq κ]
    (d : List (κ × β)) (k x : κ) (f : β → β) :
    assoc_find (assoc_modify d k f) x =
      if k = x then (assoc_find d k).map f else assoc_find d x := by
  unfold assoc_find assoc_modify
  rw [List.find?_map]
  have hpf : ((fun kv : κ × β => decide (kv.1 = x)) ∘
      (fun kv : κ × β => if kv.1 = k then (k, f kv.2) else kv)) =
      fun kv : κ × β => decide (kv.1 = x) := by
    funext kv
    by_cases hk : kv.1 = k
    · simp [hk]
    · simp [hk]
  rw [hpf]
  by_cases hkx : k = x
  · subst hkx
    cases hfind : List.find? (fun kv : κ × β => decide (kv.1 = k)) d with
    | none => simp
    | some kv0 =>
      have hx : kv0.1 = k := by simpa using List.find?_some hfind
      simp [hx]
  · cases hfind : List.find? (fun kv : κ × β => decide (kv.1 = x)) d with
    | none => simp [hkx]
    | some kv0 =>
      have hx : kv0.1 = x := by simpa using List.find?_some hfind
      have hk : ¬ kv0.1 = k := by rw [hx]; intro hc; exact hkx hc.symm
      simp [hkx, hk]

theorem assoc_find_append_single {κ β : Type} [DecidableEq κ]
    (d : List (κ × β)) (k x : κ) (v : β) :
    assoc_find (d ++ [(k, v)]) x =
      (assoc_find d x).or (if k = x then some v else none) := by
  unfold assoc_find
  rw [List.find?_append]
  cases hfind : List.find? (fun kv : κ × β => decide (kv.1 = x)) d with
  | none =>
    by_cases hkx : k = x <;> simp [List.find?, hkx]
  | some kv0 => simp

theorem assoc_find_upsert {κ β : Type} [DecidableEq κ]
    (d : List (κ × β)) (k x : κ) (f : β → β) (dflt : β) :
    assoc_find (assoc_upsert d k f dflt) x =
      if k = x then some (f ((assoc_find d k).getD dflt)) else assoc_find d x := by
  unfold assoc_upsert
  by_cases hmem : d.any (fun kv => kv.1 = k) = true
  · rw [if_pos hmem, assoc_find_modify]
    have hsome := assoc_find_isSome_of_any hmem
    cases hfk : assoc_find d k with
    | none => rw [hfk] at hsome; simp at hsome
    | some v0 => by_cases hkx : k = x <;> simp [hfk, hkx]
  · rw [if_neg hmem, assoc_find_append_single]
    simp only [Bool.not_eq_true] at hmem
    have hnone := assoc_find_eq_none_of_not_any hmem
    by_cases hkx : k = x
    · subst hkx
      rw [hnone]
      simp [hnone]
    · simp [hkx]

theorem dict_get_set (d : List (ℤ × ℤ)) (k v x dflt : ℤ) :
    dict_get (dict_set d k v) x dflt = if k = x then v else dict_get d x dflt := by
  unfold dict_get dict_set
  rw [assoc_find_upsert]
  by_cases hkx : k = x <;> simp [hkx]

theorem multidict_get_append (m : List (ℤ × List ℤ)) (k v x : ℤ) :
    multidict_get (multidict_append m k v) x =
      if k = x then multidict_get m x ++ [v] else multidict_get m x := by
  unfold multidict_get multidict_append
  rw [assoc_find_upsert]
  by_cases hkx : k = x <;> simp [hkx]

theorem multidict_get_fold (rows : List (ℤ × ℤ)) (m : List (ℤ × List ℤ)) (k : ℤ) :
    multidict_get (rows.foldl (fun m r => multidict_append m r.1 r.2) m) k =
      multidict_get m k ++ (rows.filter (fun r => r.1 = k)).map (·.2) := by
  induction rows generalizing m with
  | nil => simp
  | cons r rows ih =>
    rw [List.foldl_cons, ih, multidict_get_append]
    by_cases hk : r.1 = k
    · simp [List.filter_cons, hk]
    · simp [List.filter_cons, hk]

theorem hex_not_space {c : Char} (h : isHexDigitPy c = true) :
    isPySpace c = false := by
  simp only [isHexDigitPy, Bool.or_eq_true, Bool.and_eq_true,
    decide_eq_true_eq] at h
  simp only [isPySpace, Bool.or_eq_false_iff, Bool.and_eq_false_iff,
    decide_eq_false_iff_not]
  omega

theorem hex_ne_of_not_hex {c d : Char} (h : isHexDigitPy c = true)
    (hd : isHexDigitPy d = false) : ¬ c = d := by
  intro he
  rw [he, hd] at h
  exact Bool.false_ne_true h

theorem hexTailRun_of_all_hex :
    ∀ l : List Char, (∀ c ∈ l, isHexDigitPy c = true) → hexTailRun l = true := by
  intro l
  induction l with
  | nil => intro _; rfl
  | cons c rest ih =>
    intro h
    have hc : isHexDigitPy c = true := h c (List.mem_cons_self c rest)
    have hne : ¬ c = '_' := hex_ne_of_not_hex hc (by decide)
    unfold hexTailRun
    rw [if_neg hne, hc, ih (fun d hd => h d (List.mem_cons_of_mem c hd))]
    rfl

theorem pyIntHexOk_of_all_hex (l : List Char) (hne : l ≠ [])
    (h : ∀ c ∈ l, isHexDigitPy c = true) : pyIntHexOk l = true := by
  have hstrip : stripPySpaces l = l := by
    unfold stripPySpaces
    have h1 : l.dropWhile isPySpace = l := by
      cases l with
      | nil => rfl
      | cons c rest =>
        rw [List.dropWhile_cons,
          hex_not_space (h c (List.mem_cons_self c rest))]
        simp
    rw [h1]
    have h2 : l.reverse.dropWhile isPySpace = l.reverse := by
      cases hrev : l.reverse with
      | nil => rfl
      | cons c rest =>
        have hc : c ∈ l := by
          rw [← List.mem_reverse, hrev]
          exact List.mem_cons_self c rest
        rw [List.dropWhile_cons, hex_not_space (h c hc)]
        simp
    rw [h2, List.reverse_reverse]
  have hdigits : hexDigitsRun l = true := by
    cases l with
    | nil => exact absurd rfl hne
    | cons c rest =>
      show (isHexDigitPy c && hexTailRun rest) = true
      rw [h c (List.mem_cons_self c rest),
        hexTailRun_of_all_hex rest (fun d hd => h d (List.mem_cons_of_mem c hd))]
      rfl
  cases l with
  | nil => exact absurd rfl hne
  | cons c rest =>
    have hc : isHexDigitPy c = true := h c (List.mem_cons_self c rest)
    have hsign : dropSign (c :: rest) = c :: rest := by
      have h1 : ¬ c = '+' := hex_ne_of_not_hex hc (by decide)
      have h2 : ¬ c = '-' := hex_ne_of_not_hex hc (by decide)
      show (if c = '+' || c = '-' then rest else c :: rest) = c :: rest
      simp [h1, h2]
    have hbase : dropHexBase (c :: rest) = (false, c :: rest) := by
      cases rest with
      | nil => rfl
      | cons c1 rest1 =>
        have hc1 : isHexDigitPy c1 = true :=
          h c1 (List.mem_cons_of_mem c (List.mem_cons_self c1 rest1))
        have hx : ¬ c1 = 'x' := hex_ne_of_not_hex hc1 (by decide)
        have hX : ¬ c1 = 'X' := hex_ne_of_not_hex hc1 (by decide)
        show (if c = '0' && (c1 = 'x' || c1 = 'X') then (true, rest1)
          else (false, c :: c1 :: rest1)) = (false, c :: c1 :: rest1)
        simp [hx, hX]
    unfold pyIntHexOk
    rw [hstrip, hsign, hbase]
    exact hdigits

theorem dict_get_count_fold (l : List ℤ) (d : List (ℤ × ℤ)) (k : ℤ) :
    dict_get (l.foldl (fun d t => dict_set d t (dict_get d t 0 + 1)) d) k 0 =
      dict_get d k 0 + ((l.filter (fun t => t = k)).length : ℤ) := by
  induction l generalizing d with
  | nil => simp
  | cons t l ih =>
    rw [List.foldl_cons, ih, dict_get_set]
    by_cases hk : t = k
    · simp [List.filter_cons, hk]
      ring
    · simp [List.filter_cons, hk]

theorem borda_fold_not_mem (g : ℕ × ℤ → ℤ) :
    ∀ (pairs : List (ℕ × ℤ)) (acc : List (ℤ × ℤ)) (x : ℤ),
      x ∉ pairs.map (·.2) →
      dict_get (pairs.foldl
        (fun a pi => dict_set a pi.2 (dict_get a pi.2 0 + g pi)) acc) x 0 =
        dict_get acc x 0 := by
  intro pairs
  induction pairs with
  | nil => intro acc x _; rfl
  | cons q rest ih =>
    intro acc x hx
    rw [List.map_cons] at hx
    have hxq : ¬ q.2 = x := fun h => hx (by rw [h]; exact List.mem_cons_self x _)
    have hxrest : x ∉ rest.map (·.2) := fun h => hx (List.mem_cons_of_mem _ h)
    rw [List.foldl_cons, ih _ x hxrest, dict_get_set]
    rw [if_neg hxq]

theorem borda_fold_mem (g : ℕ × ℤ → ℤ) :
    ∀ (pairs : List (ℕ × ℤ)) (acc : List (ℤ × ℤ)) (p : ℕ) (x : ℤ),
      (p, x) ∈ pairs → (pairs.map (·.2)).Nodup → dict_get acc x 0 = 0 →
      dict_get (pairs.foldl
        (fun a pi => dict_set a pi.2 (dict_get a pi.2 0 + g pi)) acc) x 0 =
        g (p, x) := by
  intro pairs
  induction pairs with
  | nil => intro acc p x hmem; exact absurd hmem (List.not_mem_nil _)
  | cons q rest ih =>
    intro acc p x hmem hnd h0
    rw [List.map_cons, List.nodup_cons] at hnd
    rcases List.mem_cons.mp hmem with heq | hrest
    · rw [← heq] at hnd ⊢
      rw [List.foldl_cons]
      have hnotin : x ∉ rest.map (·.2) := by
        have := hnd.1
        simpa using this
      rw [borda_fold_not_mem g rest _ x hnotin, dict_get_set]
      rw [if_pos rfl, h0, zero_add]
    · have hx_in_rest : x ∈ rest.map (·.2) :=
        List.mem_map.mpr ⟨(p, x), hrest, rfl⟩
      have hqx : ¬ q.2 = x := fun h => hnd.1 (h ▸ hx_in_rest)
      rw [List.foldl_cons]
      refine ih _ p x hrest hnd.2 ?_
      rw [dict_get_set, if_neg hqx]
      exact h0

/-! ## Claim theorems -/

/-- C6 (amended): the fingerprint validator accepts every string of exactly
64 hex digits and only strings of length 64; `get_vote_identity` passes the
fingerprint through unchanged (not re-hashed); and a submission whose
fingerprint fails validation is rejected with the invalid-fingerprint error
before any other processing, leaving the stored state unchanged.  (The
converse of acceptance fails: the validator also accepts certain 64-character
non-hex strings, see the counterexample.) -/
theorem C6_fingerprint_validation :
    (∀ s : String, s.length = 64 → (∀ c ∈ s.data, isHexDigitPy c = true) →
      validate_fingerprint s = true) ∧
    (∀ s : String, validate_fingerprint s = true → s.length = 64) ∧
    (∀ ip fp : String, get_vote_identity ip fp = (fp, ip)) ∧
    (∀ (req : VoteRequest) (ip : String) (susp : Bool × Option String)
        (cdup : Bool) (db : DB), validate_fingerprint req.fingerprint = false →
      submit_vote req ip susp cdup db =
        (SubmitOutcome.httpError 400 "Invalid fingerprint format", db)) := by
  refine ⟨?_, ?_, ?_, ?_⟩
  · intro s hlen hhex
    have hne : s.data ≠ [] := by
      intro hnil
      rw [String.length, hnil] at hlen
      simp at hlen
    unfold validate_fingerprint
    rw [pyIntHexOk_of_all_hex s.data hne hhex]
    simp [hlen]
  · intro s h
    unfold validate_fingerprint at h
    simp only [Bool.and_eq_true, decide_eq_true_eq] at h
    exact h.1
  · intro ip fp
    rfl
  · intro req ip susp cdup db h
    unfold submit_vote
    rw [h]
    simp

/-- C6 counterexample: the 64-character string `0x` followed by 62 zeros is
accepted by the validator although it contains the non-hex character `x`
(CPython `int(s, 16)` accepts a `0x` base prefix). -/
theorem C6_counterexample :
    validate_fingerprint
        "0x00000000000000000000000000000000000000000000000000000000000000" = true ∧
    'x' ∈ ("0x00000000000000000000000000000000000000000000000000000000000000" : String).data ∧
    isHexDigitPy 'x' = false := by
  refine ⟨by decide, by decide, by decide⟩

/-- C6 witness: the all-`a` fingerprint of length 64 is accepted via the
theorem's first conjunct. -/
theorem C6_witness :
    ("aaaaaaaaaaaaaaaaaaaaaaaaaaaaaaaaaaaaaaaaaaaaaaaaaaaaaaaaaaaaaaaa" : String).length = 64 ∧
    validate_fingerprint
      "aaaaaaaaaaaaaaaaaaaaaaaaaaaaaaaaaaaaaaaaaaaaaaaaaaaaaaaaaaaaaaaa" = true :=
  ⟨by decide,
    C6_fingerprint_validation.1
      "aaaaaaaaaaaaaaaaaaaaaaaaaaaaaaaaaaaaaaaaaaaaaaaaaaaaaaaaaaaaaaaa"
      (by decide) (by decide)⟩

/-- C1 (code bug): a fully valid single-choice submission (valid fingerprint,
not suspicious, active `single_choice` category, eligible item, exactly one
choice, no prior vote) does not get accepted and persisted: `submit_vote`
evaluates `ComparisonMode.TOURNAMENT_TIERS.value` at the item-extraction
step, and `models/enums.py` declares no such member, so the call raises
`AttributeError` and persists nothing. -/
theorem C1_submit_vote_crashes :
    submit_vote
        ⟨1, "aaaaaaaaaaaaaaaaaaaaaaaaaaaaaaaaaaaaaaaaaaaaaaaaaaaaaaaaaaaaaaaa",
          [1], none⟩
        "iphash" (false, none) false
        ⟨[⟨1, "single_choice", true, none⟩], [(1, 1)], [], [], [], [], 1⟩ =
      (SubmitOutcome.attrError "ComparisonMode.TOURNAMENT_TIERS",
        ⟨[⟨1, "single_choice", true, none⟩], [(1, 1)], [], [], [], [], 1⟩) := by
  decide

/-- C2 (code bug): a valid tournament_tiers upsert request never reaches the
find-or-create/upsert logic: `upsert_vote` evaluates
`ComparisonMode.TOURNAMENT_TIERS.value` in its mode guard, and
`models/enums.py` declares no such member, so every call raises
`AttributeError` and persists nothing. -/
theorem C2_upsert_vote_crashes :
    upsert_vote
        ⟨1, "aaaaaaaaaaaaaaaaaaaaaaaaaaaaaaaaaaaaaaaaaaaaaaaaaaaaaaaaaaaaaaaa",
          [1, 0], none⟩
        "iphash" (false, none)
        ⟨[⟨1, "tournament_tiers", true, some ["S", "A", "B"]⟩], [(1, 1)],
          [], [], [], [], 1⟩ =
      (SubmitOutcome.attrError "ComparisonMode.TOURNAMENT_TIERS",
        ⟨[⟨1, "tournament_tiers", true, some ["S", "A", "B"]⟩], [(1, 1)],
          [], [], [], [], 1⟩) := by
  decide

/-- C3 (amended): a second `submit_vote` for a pair `(category_id,
fingerprint)` that already has a Vote row is rejected with the
DuplicateVote error (HTTP 409, "Already voted in this category") and leaves
the stored state unchanged.  However, a commit-time unique-constraint
failure from a concurrent duplicate is not translated to DuplicateVote: the
code has no handler for it, and in the current code a fresh submission
fails with `AttributeError` before any insert or commit is attempted
(stored state again unchanged). -/
theorem C3_duplicate_vote_handling :
    (∀ (req : VoteRequest) (ip : String) (susp : Bool × Option String)
        (cdup : Bool) (db : DB) (cat : CategoryRow),
      validate_fingerprint req.fingerprint = true →
      susp.1 = false →
      db.categories.find? (fun c => c.id = req.category_id) = some cat →
      cat.is_active = true →
      db.votes.any (fun v => v.category_id = req.category_id &&
        v.fingerprint_hash = req.fingerprint) = true →
      submit_vote req ip susp cdup db =
        (SubmitOutcome.httpError 409 "Already voted in this category", db)) ∧
    (∀ (req : VoteRequest) (ip : String) (susp : Bool × Option String)
        (cdup : Bool) (db : DB) (cat : CategoryRow),
      validate_fingerprint req.fingerprint = true →
      susp.1 = false →
      db.categories.find? (fun c => c.id = req.category_id) = some cat →
      cat.is_active = true →
      db.votes.any (fun v => v.category_id = req.category_id &&
        v.fingerprint_hash = req.fingerprint) = false →
      submit_vote req ip susp cdup db =
        (SubmitOutcome.attrError "ComparisonMode.TOURNAMENT_TIERS", db)) := by
  have hattr : comparisonModeAttr "TOURNAMENT_TIERS" = none := by decide
  constructor
  · intro req ip susp cdup db cat h1 h2 h3 h4 h5
    unfold submit_vote
    rw [h1, h2, h3]
    simp [h4, get_vote_identity, h5]
  · intro req ip susp cdup db cat h1 h2 h3 h4 h5
    unfold submit_vote
    rw [h1, h2, h3]
    simp [h4, get_vote_identity, h5, hattr]

/-- C3 counterexample: in the claim's concurrent scenario (no prior vote,
all gates pass, and the storage layer's unique-constraint check would fail
at commit), the call does not report DuplicateVote: it raises
`AttributeError` before reaching the commit. -/
theorem C3_counterexample :
    (submit_vote
        ⟨1, "aaaaaaaaaaaaaaaaaaaaaaaaaaaaaaaaaaaaaaaaaaaaaaaaaaaaaaaaaaaaaaaa",
          [1], none⟩
        "iphash" (false, none) true
        ⟨[⟨1, "single_choice", true, none⟩], [(1, 1)], [], [], [], [], 1⟩).1 =
      SubmitOutcome.attrError "ComparisonMode.TOURNAMENT_TIERS" ∧
    (submit_vote
        ⟨1, "aaaaaaaaaaaaaaaaaaaaaaaaaaaaaaaaaaaaaaaaaaaaaaaaaaaaaaaaaaaaaaaa",
          [1], none⟩
        "iphash" (false, none) true
        ⟨[⟨1, "single_choice", true, none⟩], [(1, 1)], [], [], [], [], 1⟩).1 ≠
      SubmitOutcome.httpError 409 "Already voted in this category" := by
  refine ⟨by decide, by decide⟩

/-- C3 witness: a concrete state with an existing vote for the pair, where
the second submission is rejected with 409 and the state is unchanged. -/
theorem C3_witness :
    validate_fingerprint
        "aaaaaaaaaaaaaaaaaaaaaaaaaaaaaaaaaaaaaaaaaaaaaaaaaaaaaaaaaaaaaaaa" = true ∧
    submit_vote
        ⟨1, "aaaaaaaaaaaaaaaaaaaaaaaaaaaaaaaaaaaaaaaaaaaaaaaaaaaaaaaaaaaaaaaa",
          [1], none⟩
        "iphash" (false, none) false
        ⟨[⟨1, "single_choice", true, none⟩], [(1, 1)],
          [⟨0, 1, "aaaaaaaaaaaaaaaaaaaaaaaaaaaaaaaaaaaaaaaaaaaaaaaaaaaaaaaaaaaaaaaa",
            "iphash"⟩], [], [], [], 1⟩ =
      (SubmitOutcome.httpError 409 "Already voted in this category",
        ⟨[⟨1, "single_choice", true, none⟩], [(1, 1)],
          [⟨0, 1, "aaaaaaaaaaaaaaaaaaaaaaaaaaaaaaaaaaaaaaaaaaaaaaaaaaaaaaaaaaaaaaaa",
            "iphash"⟩], [], [], [], 1⟩) :=
  ⟨by decide,
    C3_duplicate_vote_handling.1 _ _ _ _ _ ⟨1, "single_choice", true, none⟩
      (by decide) (by decide) (by decide) (by decide) (by decide)⟩

/-- C9: when the abuse-detection collaborator's backing store raises, the
error does not propagate: `check_suspicious_patterns` answers `(False, None)`
— exactly as if no suspicion were detected — and `record_vote_attempt`
returns normally. -/
theorem C9_fail_open :
    (∀ (r : RedisClient) (maxF maxI : ℕ) (ip fp : String) (e : String),
      check_suspicious_run r maxF maxI ip fp = .error e →
      check_suspicious_patterns r maxF maxI ip fp = (false, none)) ∧
    (∀ (r : RedisClient) (ip fp : String) (cat : ℤ) (succ : Bool) (ts : ℕ),
      record_vote_attempt r ip fp cat succ ts = ()) := by
  constructor
  · intro r mF mI ip fp e h
    unfold check_suspicious_patterns
    rw [h]
  · intro r ip fp cat succ ts
    unfold record_vote_attempt
    cases record_attempt_run r ip fp cat succ ts <;> rfl

/-- C9 witness: a client whose every primitive raises makes the inner run
fail, and the check then answers `(false, none)`. -/
theorem C9_witness :
    check_suspicious_run failingRedis 5 3 "ip" "fp" = .error "down" ∧
    check_suspicious_patterns failingRedis 5 3 "ip" "fp" = (false, none) :=
  ⟨by rfl, C9_fail_open.1 failingRedis 5 3 "ip" "fp" "down" (by rfl)⟩

/-- C10: `borda_count` ignores its `num_items` parameter entirely, and the
score a lone ranking gives the item at position `i` is
`len(ranking) - 1 - i`, computed from that ranking's own length. -/
theorem C10_borda_count_num_items_unused :
    (∀ (rankings : List (List ℤ)) (n1 n2 : ℕ),
      borda_count rankings n1 = borda_count rankings n2) ∧
    (∀ (ranking : List ℤ) (n i : ℕ) (hi : i < ranking.length),
      ranking.Nodup →
      dict_get (borda_count [ranking] n) (ranking.get ⟨i, hi⟩) 0 =
        (ranking.length : ℤ) - 1 - (i : ℤ)) := by
  constructor
  · intro rankings n1 n2
    rfl
  · intro ranking n i hi hnd
    have hmem : ((i, ranking.get ⟨i, hi⟩) : ℕ × ℤ) ∈ ranking.enum := by
      have hlen : i < ranking.enum.length := by
        rw [List.enum_length]; exact hi
      have := List.getElem_mem hlen
      rwa [List.getElem_enum] at this
    have hnd2 : (ranking.enum.map (·.2)).Nodup := by
      rw [List.enum_map_snd]; exact hnd
    have h0 : dict_get [] (ranking.get ⟨i, hi⟩) 0 = 0 := rfl
    have := borda_fold_mem
      (fun pi => (ranking.length : ℤ) - 1 - (pi.1 : ℤ))
      ranking.enum [] i (ranking.get ⟨i, hi⟩) hmem hnd2 h0
    exact this

/-- C10 witness: for the ranking `[5, 7, 9]`, the item `7` at position 1
scores `3 - 1 - 1 = 1`, independently of `num_items`. -/
theorem C10_witness :
    (([5, 7, 9] : List ℤ).Nodup ∧ 1 < ([5, 7, 9] : List ℤ).length) ∧
    dict_get (borda_count [[5, 7, 9]] 0) 7 0 = 1 :=
  ⟨⟨by decide, by decide⟩, by
    have h := C10_borda_count_num_items_unused.2 [5, 7, 9] 0 1 (by decide)
      (by decide)
    simpa using h⟩

theorem eloLookup_append_other (st : EloState) (c i j : ℤ) (row : ℚ × ℕ)
    (h : j ≠ i) : eloLookup (st ++ [((c, i), row)]) c j = eloLookup st c j := by
  unfold eloLookup
  rw [assoc_find_append_single]
  rw [if_neg (fun heq => h ((congrArg Prod.snd heq).symm))]
  cases assoc_find st (c, j) <;> rfl

theorem eloLookup_append_self (st : EloState) (c i : ℤ) (row : ℚ × ℕ)
    (h : eloLookup st c i = none) :
    eloLookup (st ++ [((c, i), row)]) c i = some row := by
  unfold eloLookup at h ⊢
  rw [assoc_find_append_single, h, if_pos rfl]
  rfl

theorem eloLookup_modify_self (st : EloState) (c i : ℤ) (f : ℚ × ℕ → ℚ × ℕ) :
    eloLookup (eloModify st c i f) c i = (eloLookup st c i).map f := by
  unfold eloLookup eloModify
  rw [assoc_find_modify, if_pos rfl]

theorem eloLookup_modify_other (st : EloState) (c i j : ℤ) (f : ℚ × ℕ → ℚ × ℕ)
    (h : j ≠ i) : eloLookup (eloModify st c i f) c j = eloLookup st c j := by
  unfold eloLookup eloModify
  rw [assoc_find_modify, if_neg (fun heq => h ((congrArg Prod.snd heq).symm))]

theorem get_or_create_spec (st : EloState) (c i : ℤ) (init : ℚ) :
    (get_or_create_rating st c i init).1 = (eloLookup st c i).getD (init, 0) ∧
    eloLookup (get_or_create_rating st c i init).2 c i =
      some ((eloLookup st c i).getD (init, 0)) ∧
    ∀ j : ℤ, j ≠ i →
      eloLookup (get_or_create_rating st c i init).2 c j = eloLookup st c j := by
  unfold get_or_create_rating
  cases h : eloLookup st c i with
  | some r => exact ⟨rfl, by simpa using h, fun j _ => rfl⟩
  | none =>
    refine ⟨rfl, ?_, ?_⟩
    · simpa using eloLookup_append_self st c i (init, 0) h
    · intro j hj
      simpa using eloLookup_append_other st c i j (init, 0) hj

theorem C4_record_match :
    (∀ (st : EloState) (cat w l : ℤ) (k p : ℚ),
      w ≠ l →
      pow10exact ((((eloLookup st cat l).getD (1500, 0)).1 -
          ((eloLookup st cat w).getD (1500, 0)).1) / 400) = some p →
      ∃ (st2 : EloState) (nw nl : ℚ),
        record_match st cat w l 1500 k = some ((nw, nl), st2) ∧
        nw = round2 (((eloLookup st cat w).getD (1500, 0)).1 +
          k * (1 - 1 / (1 + p))) ∧
        nl = round2 (((eloLookup st cat l).getD (1500, 0)).1 -
          k * (1 - 1 / (1 + p))) ∧
        eloLookup st2 cat w =
          some (nw, ((eloLookup st cat w).getD (1500, 0)).2 + 1) ∧
        eloLookup st2 cat l =
          some (nl, ((eloLookup st cat l).getD (1500, 0)).2 + 1)) ∧
    record_match [] 0 1 2 1500 32 =
      some ((1516, 1484), [((0, 1), (1516, 1)), ((0, 2), (1484, 1))]) := by
  constructor
  · intro st cat w l k p hwl hpow
    have hlw : l ≠ w := fun h => hwl h.symm
    cases hA : eloLookup st cat w with
    | some aw =>
      cases hB : eloLookup st cat l with
      | some bl =>
        rw [hA, hB] at hpow
        simp only [Option.getD_some] at hpow ⊢
        refine ⟨eloModify (eloModify st cat w
            (fun wg => (round2 (aw.1 + k * (1 - 1 / (1 + p))), wg.2 + 1))) cat l
            (fun lg => (round2 (bl.1 + k * (0 - (1 - 1 / (1 + p)))), lg.2 + 1)),
          round2 (aw.1 + k * (1 - 1 / (1 + p))),
          round2 (bl.1 + k * (0 - (1 - 1 / (1 + p)))), ?_, rfl, ?_, ?_, ?_⟩
        · simp only [record_match, get_or_create_rating, hA, hB,
            calculate_elo_update]
          rw [hpow]
          rfl
        · congr 1; ring
        · rw [eloLookup_modify_other _ _ _ _ _ hwl, eloLookup_modify_self, hA]
          rfl
        · rw [eloLookup_modify_self, eloLookup_modify_other _ _ _ _ _ hlw, hB]
          rfl
      | none =>
        have hLs : eloLookup (st ++ [((cat, l), (1500, 0))]) cat l =
            some (1500, 0) := eloLookup_append_self st cat l (1500, 0) hB
        have hWs : eloLookup (st ++ [((cat, l), (1500, 0))]) cat w =
            some aw := by
          rw [eloLookup_append_other _ _ _ _ _ hwl]; exact hA
        rw [hA, hB] at hpow
        simp only [Option.getD_some, Option.getD_none] at hpow ⊢
        refine ⟨eloModify (eloModify (st ++ [((cat, l), (1500, 0))]) cat w
            (fun wg => (round2 (aw.1 + k * (1 - 1 / (1 + p))), wg.2 + 1))) cat l
            (fun lg => (round2 ((1500 : ℚ) + k * (0 - (1 - 1 / (1 + p)))), lg.2 + 1)),
          round2 (aw.1 + k * (1 - 1 / (1 + p))),
          round2 ((1500 : ℚ) + k * (0 - (1 - 1 / (1 + p)))), ?_, rfl, ?_, ?_, ?_⟩
        · simp only [record_match, get_or_create_rating, hA, hB,
            calculate_elo_update]
          rw [hpow]
          rfl
        · congr 1; ring
        · rw [eloLookup_modify_other _ _ _ _ _ hwl, eloLookup_modify_self, hWs]
          rfl
        · rw [eloLookup_modify_self, eloLookup_modify_other _ _ _ _ _ hlw, hLs]
          rfl
    | none =>
      cases hB : eloLookup st cat l with
      | some bl =>
        have hB1 : eloLookup (st ++ [((cat, w), (1500, 0))]) cat l =
            some bl := by
          rw [eloLookup_append_other _ _ _ _ _ hlw]; exact hB
        have hWs : eloLookup (st ++ [((cat, w), (1500, 0))]) cat w =
            some (1500, 0) := eloLookup_append_self st cat w (1500, 0) hA
        rw [hA, hB] at hpow
        simp only [Option.getD_some, Option.getD_none] at hpow ⊢
        refine ⟨eloModify (eloModify (st ++ [((cat, w), (1500, 0))]) cat w
            (fun wg => (round2 ((1500 : ℚ) + k * (1 - 1 / (1 + p))), wg.2 + 1))) cat l
            (fun lg => (round2 (bl.1 + k * (0 - (1 - 1 / (1 + p)))), lg.2 + 1)),
          round2 ((1500 : ℚ) + k * (1 - 1 / (1 + p))),
          round2 (bl.1 + k * (0 - (1 - 1 / (1 + p)))), ?_, rfl, ?_, ?_, ?_⟩
        · simp only [record_match, get_or_create_rating, hA, hB1,
            calculate_elo_update]
          rw [hpow]
          rfl
        · congr 1; ring
        · rw [eloLookup_modify_other _ _ _ _ _ hwl, eloLookup_modify_self, hWs]
          rfl
        · rw [eloLookup_modify_self, eloLookup_modify_other _ _ _ _ _ hlw, hB1]
          rfl
      | none =>
        have hB1 : eloLookup (st ++ [((cat, w), (1500, 0))]) cat l = none := by
          rw [eloLookup_append_other _ _ _ _ _ hlw]; exact hB
        have hLs : eloLookup (st ++ [((cat, w), (1500, 0))] ++
            [((cat, l), (1500, 0))]) cat l = some (1500, 0) :=
          eloLookup_append_self _ cat l (1500, 0) hB1
        have hWs : eloLookup (st ++ [((cat, w), (1500, 0))] ++
            [((cat, l), (1500, 0))]) cat w = some (1500, 0) := by
          rw [eloLookup_append_other _ _ _ _ _ hwl]
          exact eloLookup_append_self st cat w (1500, 0) hA
        rw [hA, hB] at hpow
        simp only [Option.getD_none] at hpow ⊢
        refine ⟨eloModify (eloModify (st ++ [((cat, w), (1500, 0))] ++ [((cat, l), (1500, 0))]) cat w
            (fun wg => (round2 ((1500 : ℚ) + k * (1 - 1 / (1 + p))), wg.2 + 1))) cat l
            (fun lg => (round2 ((1500 : ℚ) + k * (0 - (1 - 1 / (1 + p)))), lg.2 + 1)),
          round2 ((1500 : ℚ) + k * (1 - 1 / (1 + p))),
          round2 ((1500 : ℚ) + k * (0 - (1 - 1 / (1 + p)))), ?_, rfl, ?_, ?_, ?_⟩
        · simp only [record_match, get_or_create_rating, hA, hB1,
            calculate_elo_update]
          rw [hpow]
          rfl
        · congr 1; ring
        · rw [eloLookup_modify_other _ _ _ _ _ hwl, eloLookup_modify_self, hWs]
          rfl
        · rw [eloLookup_modify_self, eloLookup_modify_other _ _ _ _ _ hlw, hLs]
          rfl
  · norm_num [record_match, get_or_create_rating, eloLookup, assoc_find,
      List.find?, eloModify, assoc_modify, calculate_elo_update, pow10exact,
      round2, roundHalfEven]

/-- C4 witness: two fresh items (ratings absent, so initialized at 1500.0
with 0 games) and `k = 32`, where the exponent is 0 and `10 ** 0 = 1`. -/
theorem C4_witness :
    ((1 : ℤ) ≠ 2 ∧
      pow10exact ((((eloLookup [] 0 2).getD (1500, 0)).1 -
        ((eloLookup [] 0 1).getD (1500, 0)).1) / 400) = some 1) ∧
    (∃ (st2 : EloState) (nw nl : ℚ),
      record_match [] 0 1 2 1500 32 = some ((nw, nl), st2) ∧
      nw = round2 (((eloLookup [] 0 1).getD (1500, 0)).1 +
        32 * (1 - 1 / (1 + 1))) ∧
      nl = round2 (((eloLookup [] 0 2).getD (1500, 0)).1 -
        32 * (1 - 1 / (1 + 1))) ∧
      eloLookup st2 0 1 = some (nw, ((eloLookup [] 0 1).getD (1500, 0)).2 + 1) ∧
      eloLookup st2 0 2 = some (nl, ((eloLookup [] 0 2).getD (1500, 0)).2 + 1)) :=
  ⟨⟨by decide, by norm_num [pow10exact, eloLookup, assoc_find, List.find?]⟩,
    C4_record_match.1 [] 0 1 2 32 1 (by decide)
      (by norm_num [pow10exact, eloLookup, assoc_find, List.find?])⟩


theorem z_lookup_pos (c : ℚ) : 0 < z_lookup c := by
  unfold z_lookup
  split_ifs <;> norm_num

/-- Containment of the exact proportion in the pre-rounding Wilson bounds,
for any over-approximation `sq` of the radicand's square root. -/
theorem wilson_core (s t : ℕ) (z sq : ℚ) (hst : s ≤ t) (ht : 0 < t)
    (hz : 0 < z) (hsq : 0 ≤ sq)
    (hrad : wilson_radicand s t z ≤ sq * sq) :
    max 0 ((((s:ℚ)/t + z^2/(2*t)) / (1 + z^2/t)) - z * sq / (1 + z^2/t)) ≤ (s:ℚ)/t ∧
    (s:ℚ)/t ≤ min 1 ((((s:ℚ)/t + z^2/(2*t)) / (1 + z^2/t)) + z * sq / (1 + z^2/t)) := by
  have hT : (0:ℚ) < (t:ℚ) := by exact_mod_cast ht
  have htne : ((t:ℚ)) ≠ 0 := ne_of_gt hT
  set p : ℚ := (s:ℚ) / (t:ℚ) with hpdef
  have hp0 : 0 ≤ p := by positivity
  have hp1 : p ≤ 1 := by
    rw [hpdef, div_le_one hT]
    exact_mod_cast hst
  have hpq : (0:ℚ) ≤ p * (1 - p) := mul_nonneg hp0 (by linarith)
  have hradt : p * (1 - p) * (t:ℚ) * 4 + z^2 ≤ 4 * (sq * sq) * (t:ℚ)^2 := by
    have h := hrad
    rw [show wilson_radicand s t z = (p * (1 - p) + z^2/(4*(t:ℚ)))/(t:ℚ) from rfl,
      div_le_iff₀ hT] at h
    field_simp at h
    rw [div_le_iff₀ (by positivity : (0:ℚ) < 4 * t)] at h
    nlinarith [h]
  have h1 : (z * (1/2 - p))^2 ≤ (sq * (t:ℚ))^2 := by
    nlinarith [hradt, mul_nonneg hpq (le_of_lt hT), mul_nonneg hpq (sq_nonneg z)]
  have hsqt : (0:ℚ) ≤ sq * t := by positivity
  have h2 : z * (1/2 - p) ≤ sq * (t:ℚ) := by nlinarith [h1, hsqt]
  have h3 : -(sq * (t:ℚ)) ≤ z * (1/2 - p) := by nlinarith [h1, hsqt]
  have hD : (0:ℚ) < 1 + z^2/t := by positivity
  constructor
  · apply max_le hp0
    rw [div_sub_div_same, div_le_iff₀ hD]
    have h2x : z * (z * (1/2 - p)) ≤ z * (sq * (t:ℚ)) :=
      mul_le_mul_of_nonneg_left h2 (le_of_lt hz)
    rw [← mul_le_mul_right hT]
    have exp1 : (p + z^2/(2*(t:ℚ)) - z*sq) * (t:ℚ) =
        p*(t:ℚ) + z^2/2 - z*sq*(t:ℚ) := by field_simp; ring
    have exp2 : (p * (1 + z^2/(t:ℚ))) * (t:ℚ) = p*(t:ℚ) + p*z^2 := by
      field_simp; ring
    rw [exp1, exp2]
    linarith [h2x]
  · refine le_min hp1 ?_
    rw [div_add_div_same, le_div_iff₀ hD]
    have h3x : z * (-(sq * (t:ℚ))) ≤ z * (z * (1/2 - p)) :=
      mul_le_mul_of_nonneg_left h3 (le_of_lt hz)
    rw [← mul_le_mul_right hT]
    have exp1 : (p + z^2/(2*(t:ℚ)) + z*sq) * (t:ℚ) =
        p*(t:ℚ) + z^2/2 + z*sq*(t:ℚ) := by field_simp; ring
    have exp2 : (p * (1 + z^2/(t:ℚ))) * (t:ℚ) = p*(t:ℚ) + p*z^2 := by
      field_simp; ring
    rw [exp2, exp1]
    linarith [h3x]


/-- Unfolding of `wilson_confidence_interval` for a non-zero total. -/
theorem wilson_pair_eq (s t : ℕ) (conf sq : ℚ) (ht : ¬ t = 0) :
    wilson_confidence_interval s t conf sq =
      (round2 (max 0 ((((s:ℚ)/t + (z_lookup conf)^2/(2*t)) / (1 + (z_lookup conf)^2/t)) -
        z_lookup conf * sq / (1 + (z_lookup conf)^2/t)) * 100),
       round2 (min 1 ((((s:ℚ)/t + (z_lookup conf)^2/(2*t)) / (1 + (z_lookup conf)^2/t)) +
        z_lookup conf * sq / (1 + (z_lookup conf)^2/t)) * 100)) := by
  unfold wilson_confidence_interval
  rw [if_neg ht]

/-- C5 (amended): for `0 ≤ s ≤ t`, `t > 0`, and any `sq` with
`0 ≤ sq` and `radicand ≤ sq²` (in particular the exact square root the code
computes), the returned bounds satisfy `0 ≤ lower`, `upper ≤ 100`,
`lower ≤ percentage(s,t) + 0.005` and `percentage(s,t) - 0.005 ≤ upper`
(the 0.005 slack is forced by the final 2-decimal rounding, see the
counterexample); the function returns exactly `(0, 0)` whenever `total = 0`
regardless of the confidence; and any unrecognized confidence value behaves
exactly like `0.95` (z = 1.96). -/
theorem C5_wilson_interval :
    (∀ (s t : ℕ) (conf sq : ℚ), s ≤ t → 0 < t → 0 ≤ sq →
      wilson_radicand s t (z_lookup conf) ≤ sq * sq →
      0 ≤ (wilson_confidence_interval s t conf sq).1 ∧
      (wilson_confidence_interval s t conf sq).1 ≤
        calculate_percentage s t + 1/200 ∧
      calculate_percentage s t - 1/200 ≤
        (wilson_confidence_interval s t conf sq).2 ∧
      (wilson_confidence_interval s t conf sq).2 ≤ 100) ∧
    (∀ (s : ℕ) (conf sq : ℚ), wilson_confidence_interval s 0 conf sq = (0, 0)) ∧
    (∀ (s t : ℕ) (conf sq : ℚ), conf ≠ 9/10 → conf ≠ 19/20 → conf ≠ 99/100 →
      wilson_confidence_interval s t conf sq =
        wilson_confidence_interval s t (19/20) sq) := by
  refine ⟨?_, ?_, ?_⟩
  · intro s t conf sq hst ht hsq hrad
    have htne : ¬ t = 0 := Nat.pos_iff_ne_zero.mp ht
    have hcore := wilson_core s t (z_lookup conf) sq hst ht (z_lookup_pos conf)
      hsq hrad
    rw [wilson_pair_eq s t conf sq htne]
    have hperc : calculate_percentage s t = (s:ℚ)/t * 100 := by
      unfold calculate_percentage
      rw [if_neg htne]
    have hlow0 : (0:ℚ) ≤ max 0 ((((s:ℚ)/t + (z_lookup conf)^2/(2*t)) /
        (1 + (z_lookup conf)^2/t)) -
        z_lookup conf * sq / (1 + (z_lookup conf)^2/t)) * 100 := by positivity
    have hup1 : min 1 ((((s:ℚ)/t + (z_lookup conf)^2/(2*t)) /
        (1 + (z_lookup conf)^2/t)) +
        z_lookup conf * sq / (1 + (z_lookup conf)^2/t)) * 100 ≤ 100 := by
      have := min_le_left (1:ℚ) ((((s:ℚ)/t + (z_lookup conf)^2/(2*t)) /
        (1 + (z_lookup conf)^2/t)) +
        z_lookup conf * sq / (1 + (z_lookup conf)^2/t))
      nlinarith [this]
    refine ⟨?_, ?_, ?_, ?_⟩
    · have h := round2_mono hlow0
      rw [round2_zero] at h
      exact h
    · have h1 := round2_le_add (max 0 ((((s:ℚ)/t + (z_lookup conf)^2/(2*t)) /
        (1 + (z_lookup conf)^2/t)) -
        z_lookup conf * sq / (1 + (z_lookup conf)^2/t)) * 100)
      have h2 : max 0 ((((s:ℚ)/t + (z_lookup conf)^2/(2*t)) /
          (1 + (z_lookup conf)^2/t)) -
          z_lookup conf * sq / (1 + (z_lookup conf)^2/t)) * 100 ≤ (s:ℚ)/t * 100 :=
        mul_le_mul_of_nonneg_right hcore.1 (by norm_num)
      rw [hperc]
      linarith
    · have h1 := sub_le_round2 (min 1 ((((s:ℚ)/t + (z_lookup conf)^2/(2*t)) /
        (1 + (z_lookup conf)^2/t)) +
        z_lookup conf * sq / (1 + (z_lookup conf)^2/t)) * 100)
      have h2 : (s:ℚ)/t * 100 ≤ min 1 ((((s:ℚ)/t + (z_lookup conf)^2/(2*t)) /
          (1 + (z_lookup conf)^2/t)) +
          z_lookup conf * sq / (1 + (z_lookup conf)^2/t)) * 100 :=
        mul_le_mul_of_nonneg_right hcore.2 (by norm_num)
      rw [hperc]
      linarith
    · have h := round2_mono hup1
      rw [round2_hundred] at h
      exact h
  · intro s conf sq
    unfold wilson_confidence_interval
    rw [if_pos rfl]
  · intro s t conf sq h1 h2 h3
    have hz1 : z_lookup conf = 196/100 := by
      unfold z_lookup
      rw [if_neg h1, if_neg h2, if_neg h3]
    have hz2 : z_lookup (19/20 : ℚ) = 196/100 := by norm_num [z_lookup]
    unfold wilson_confidence_interval
    rw [hz1, hz2]

/-- The returned lower bound is antitone in the square-root argument; hence
a bound proved at an over-approximation of the true square root also bounds
the code's actual result from below. -/
theorem wilson_lower_antitone (s t : ℕ) (conf sq sqq : ℚ) (h : sq ≤ sqq)
    (hsq : 0 ≤ sq) :
    (wilson_confidence_interval s t conf sqq).1 ≤
      (wilson_confidence_interval s t conf sq).1 := by
  by_cases ht : t = 0
  · subst ht
    simp [wilson_confidence_interval]
  · have hT : (0:ℚ) < (t:ℚ) := by
      have := Nat.pos_of_ne_zero ht
      exact_mod_cast this
    have hzp := z_lookup_pos conf
    rw [wilson_pair_eq s t conf sq ht, wilson_pair_eq s t conf sqq ht]
    apply round2_mono
    apply mul_le_mul_of_nonneg_right _ (by norm_num : (0:ℚ) ≤ 100)
    apply max_le_max le_rfl
    apply sub_le_sub_left
    gcongr

/-- C5 counterexample: at `s = 500099999`, `t = 10⁹`, confidence 0.95, the
claimed `lower ≤ percentage(s, t)` fails for the returned (rounded) lower
bound: with `sq = 15812/10⁹` (an over-approximation of the radicand's square
root, as certified by the second conjunct), the returned lower bound is
50.01 while the percentage is 50.0099999.  By `wilson_lower_antitone` the
same holds at the exact square root. -/
theorem C5_counterexample :
    (0:ℚ) ≤ 15812/1000000000 ∧
    wilson_radicand 500099999 1000000000 (z_lookup (19/20)) ≤
      (15812/1000000000) * (15812/1000000000) ∧
    calculate_percentage 500099999 1000000000 <
      (wilson_confidence_interval 500099999 1000000000 (19/20)
        (15812/1000000000)).1 := by
  refine ⟨by norm_num, ?_, ?_⟩
  · norm_num [wilson_radicand, z_lookup]
  · rw [wilson_pair_eq _ _ _ _ (by norm_num)]
    norm_num [z_lookup, calculate_percentage, round2, roundHalfEven, max_def]

/-- C5 witness: the amended theorem applied at `s = 1`, `t = 4`,
confidence 0.95, `sq = 1`. -/
theorem C5_witness :
    ((1:ℕ) ≤ 4 ∧ (0:ℕ) < 4 ∧ (0:ℚ) ≤ 1 ∧
      wilson_radicand 1 4 (z_lookup (19/20)) ≤ 1 * 1) ∧
    (0 ≤ (wilson_confidence_interval 1 4 (19/20) 1).1 ∧
     (wilson_confidence_interval 1 4 (19/20) 1).1 ≤
       calculate_percentage 1 4 + 1/200 ∧
     calculate_percentage 1 4 - 1/200 ≤
       (wilson_confidence_interval 1 4 (19/20) 1).2 ∧
     (wilson_confidence_interval 1 4 (19/20) 1).2 ≤ 100) :=
  ⟨⟨by decide, by decide, by norm_num, by norm_num [wilson_radicand, z_lookup]⟩,
    C5_wilson_interval.1 1 4 (19/20) 1 (by decide) (by decide) (by norm_num)
      (by norm_num [wilson_radicand, z_lookup])⟩


/-- `calculate_average_rank` applied to a list of non-null ranks. -/
theorem avg_map_some (l : List ℤ) :
    calculate_average_rank (l.map some) =
      if l = [] then none
      else some (round2 (((l.sum : ℤ) : ℚ) / (l.length : ℚ))) := by
  unfold calculate_average_rank
  rw [List.filterMap_map]
  rw [show (id ∘ some : ℤ → Option ℤ) = some from rfl, List.filterMap_some]
  simp [List.isEmpty_iff]

/-- Counting first-place ranks through the per-item grouping equals counting
`(item, 1)` rows directly. -/
theorem count_first_eq (rows : List (ℤ × ℤ)) (item : ℤ) :
    (((rows.filter (fun r => r.1 = item)).map (·.2)).filter
        (fun r => r = 1)).length =
      (rows.filter (fun r => r.1 = item && r.2 = 1)).length := by
  rw [List.filter_map, List.length_map, List.filter_filter]
  congr 1
  apply List.filter_congr
  intro x hx
  simp only [Function.comp]
  by_cases h1 : x.1 = item <;> by_cases h2 : x.2 = 1 <;> simp [h1, h2]

/-- The `defaultdict` grouping built by the aggregators: the entry for `k`
holds exactly the second components of the rows with first component `k`,
in row order. -/
theorem ranks_eq (rows : List (ℤ × ℤ)) (k : ℤ) :
    multidict_get (rows.foldl (fun m r => multidict_append m r.1 r.2) []) k =
      (rows.filter (fun r => r.1 = k)).map (·.2) := by
  rw [multidict_get_fold]
  rfl

/-- Transitivity of the sort-key comparison (with `none` as plus infinity). -/
theorem optQLe_trans (x y z : Option ℚ) (hxy : optQLe x y = true)
    (hyz : optQLe y z = true) : optQLe x z = true := by
  cases x <;> cases y <;> cases z <;> simp_all [optQLe]
  exact le_trans hxy hyz

/-- Totality of the sort-key comparison. -/
theorem optQLe_total (x y : Option ℚ) : (optQLe x y || optQLe y x) = true := by
  cases x <;> cases y <;> simp [optQLe]
  exact le_total _ _

/-- A list of integers that are all at least 1 sums to at least its length. -/
theorem sum_ge_length (l : List ℤ) (h : ∀ x ∈ l, 1 ≤ x) :
    (l.length : ℤ) ≤ l.sum := by
  induction l with
  | nil => simp
  | cons x rest ih =>
    simp only [List.length_cons, List.sum_cons]
    have h1 := h x (List.mem_cons_self x rest)
    have h2 := ih (fun y hy => h y (List.mem_cons_of_mem x hy))
    push_cast
    linarith

/-- The ranked-results record of one item, in terms of direct filters over
the queried rows. -/
theorem ranked_entry_spec (rows : List (ℤ × ℤ)) (total : ℕ) (item_id : ℤ) :
    ranked_entry (rows.foldl (fun m r => multidict_append m r.1 r.2) [])
        total item_id =
      { item_id := item_id
        vote_count := ((rows.filter (fun r => r.1 = item_id)).map (·.2)).length
        percentage := round2 (calculate_percentage
          (rows.filter (fun r => r.1 = item_id && r.2 = 1)).length total)
        average_rank :=
          if (rows.filter (fun r => r.1 = item_id)).map (·.2) = [] then none
          else some (round2
            (((((rows.filter (fun r => r.1 = item_id)).map (·.2)).sum : ℤ) : ℚ) /
             ((((rows.filter (fun r => r.1 = item_id)).map (·.2)).length : ℚ)))) } := by
  simp only [ranked_entry]
  rw [ranks_eq, count_first_eq, avg_map_some]

/-- With all ranks at least 1, an item's average rank is either null or at
least 1 (in particular never the falsy 0.0). -/
theorem if_avg_good (rows : List (ℤ × ℤ)) (ia : ℤ)
    (hpos : ∀ r ∈ rows, 1 ≤ r.2) :
    (if (rows.filter (fun r => r.1 = ia)).map (·.2) = [] then none
     else some (round2
       (((((rows.filter (fun r => r.1 = ia)).map (·.2)).sum : ℤ) : ℚ) /
        ((((rows.filter (fun r => r.1 = ia)).map (·.2)).length : ℚ))))) = none ∨
    ∃ v : ℚ,
      (if (rows.filter (fun r => r.1 = ia)).map (·.2) = [] then none
       else some (round2
         (((((rows.filter (fun r => r.1 = ia)).map (·.2)).sum : ℤ) : ℚ) /
          ((((rows.filter (fun r => r.1 = ia)).map (·.2)).length : ℚ))))) = some v ∧
      1 ≤ v := by
  by_cases hla : (rows.filter (fun r => r.1 = ia)).map (·.2) = []
  · left
    rw [if_pos hla]
  · right
    refine ⟨_, by rw [if_neg hla], ?_⟩
    have hall : ∀ x ∈ (rows.filter (fun r => r.1 = ia)).map (·.2), (1:ℤ) ≤ x := by
      intro x hx
      obtain ⟨r, hr, rfl⟩ := List.mem_map.mp hx
      exact hpos r (List.mem_filter.mp hr).1
    have hsum := sum_ge_length _ hall
    have hlen : 0 < ((rows.filter (fun r => r.1 = ia)).map (·.2)).length :=
      List.length_pos.mpr hla
    have hlenq : (0:ℚ) < ((((rows.filter (fun r => r.1 = ia)).map (·.2)).length : ℚ)) := by
      exact_mod_cast hlen
    have hmean : (1:ℚ) ≤
        (((((rows.filter (fun r => r.1 = ia)).map (·.2)).sum : ℤ) : ℚ) /
         ((((rows.filter (fun r => r.1 = ia)).map (·.2)).length : ℚ))) := by
      rw [le_div_iff₀ hlenq, one_mul]
      exact_mod_cast hsum
    have h := round2_mono hmean
    rw [round2_one] at h
    exact h


/-- `mergeSort` by an optional-rational key produces a list that is
pairwise ordered by that key. -/
theorem key_sorted {α : Type} (key : α → Option ℚ) (l : List α) :
    (l.mergeSort (fun a b => optQLe (key a) (key b))).Pairwise
      (fun a b => optQLe (key a) (key b) = true) :=
  List.sorted_mergeSort
    (fun (a b c : α) (hab : optQLe (key a) (key b) = true)
        (hbc : optQLe (key b) (key c) = true) =>
      optQLe_trans (key a) (key b) (key c) hab hbc)
    (fun a b => optQLe_total (key a) (key b)) l

/-- C7: for every ranked_list category state, the aggregation returns (as a
permutation induced only by the final sort) one record per configured item
with `vote_count` the number of non-null ranks recorded for the item,
`percentage` the rounded share of voters who ranked it first, and
`average_rank` the 2-decimal-rounded mean of its ranks (null if none); the
output is sorted by `average_rank` ascending with null-average items last
(given ranks are at least 1, as the submission path guarantees); and the two
stored votes `[2,1,3]` and `[1,2,3]` give items 1 and 2 average rank 1.5 and
item 3 average rank 3.0. -/
theorem C7_ranked_results :
    (∀ (items : List ℤ) (rows : List (ℤ × ℤ)) (total : ℕ),
      (calculate_ranked_results items rows total).Perm
        (items.map (fun item_id =>
          { item_id := item_id
            vote_count := ((rows.filter (fun r => r.1 = item_id)).map (·.2)).length
            percentage := round2 (calculate_percentage
              (rows.filter (fun r => r.1 = item_id && r.2 = 1)).length total)
            average_rank :=
              if (rows.filter (fun r => r.1 = item_id)).map (·.2) = [] then none
              else some (round2
                (((((rows.filter (fun r => r.1 = item_id)).map (·.2)).sum : ℤ) : ℚ) /
                 ((((rows.filter (fun r => r.1 = item_id)).map (·.2)).length : ℚ))))
            : RankedResult }))) ∧
    (∀ (items : List ℤ) (rows : List (ℤ × ℤ)) (total : ℕ),
      (∀ r ∈ rows, 1 ≤ r.2) →
      (calculate_ranked_results items rows total).Pairwise (fun a b =>
        match a.average_rank, b.average_rank with
        | none, some _ => False
        | some x, some y => x ≤ y
        | _, _ => True)) ∧
    calculate_ranked_results [1, 2, 3]
        [(2, 1), (1, 2), (3, 3), (1, 1), (2, 2), (3, 3)] 2 =
      [{ item_id := 1, vote_count := 2, percentage := 50, average_rank := some (3/2) },
       { item_id := 2, vote_count := 2, percentage := 50, average_rank := some (3/2) },
       { item_id := 3, vote_count := 2, percentage := 0, average_rank := some 3 }] := by
  refine ⟨?_, ?_, ?_⟩
  · intro items rows total
    refine (List.mergeSort_perm _ _).trans ?_
    rw [List.map_congr_left (fun item_id _ => ranked_entry_spec rows total item_id)]
  · intro items rows total hpos
    simp only [calculate_ranked_results]
    apply List.Pairwise.imp_of_mem ?_ (key_sorted ranked_sort_key
      (items.map (ranked_entry
        (rows.foldl (fun m r => multidict_append m r.1 r.2) []) total)))
    intro a b ha hb hle
    rw [List.mem_mergeSort] at ha hb
    obtain ⟨ia, hia, rfl⟩ := List.mem_map.mp ha
    obtain ⟨ib, hib, rfl⟩ := List.mem_map.mp hb
    rw [ranked_entry_spec rows total ia, ranked_entry_spec rows total ib] at hle ⊢
    rcases if_avg_good rows ia hpos with hA | ⟨va, hA, hva⟩ <;>
      rcases if_avg_good rows ib hpos with hB | ⟨vb, hB, hvb⟩
    · rw [hA, hB] at hle ⊢
      simp_all [ranked_sort_key, optQLe]
    · rw [hA, hB] at hle ⊢
      have hvb0 : ¬ vb = 0 := by linarith
      simp_all [ranked_sort_key, optQLe, hvb0]
    · rw [hA, hB] at hle ⊢
      simp_all [ranked_sort_key, optQLe]
    · rw [hA, hB] at hle ⊢
      have hva0 : ¬ va = 0 := by linarith
      have hvb0 : ¬ vb = 0 := by linarith
      simp_all [ranked_sort_key, optQLe, hva0, hvb0]
  · simp only [calculate_ranked_results]
    have hmap : (([1, 2, 3] : List ℤ)).map (ranked_entry
        (([(2, 1), (1, 2), (3, 3), (1, 1), (2, 2), (3, 3)] :
          List (ℤ × ℤ)).foldl (fun m r => multidict_append m r.1 r.2) []) 2) =
        [{ item_id := 1, vote_count := 2, percentage := 50, average_rank := some (3/2) },
         { item_id := 2, vote_count := 2, percentage := 50, average_rank := some (3/2) },
         { item_id := 3, vote_count := 2, percentage := 0, average_rank := some 3 }] := by
      rw [List.map_congr_left (fun item_id _ => ranked_entry_spec
        [(2, 1), (1, 2), (3, 3), (1, 1), (2, 2), (3, 3)] 2 item_id)]
      norm_num [calculate_percentage, round2, roundHalfEven]
    rw [hmap]
    apply List.mergeSort_of_sorted
    norm_num [List.pairwise_cons, optQLe, ranked_sort_key]


/-- C7 witness: the sortedness conjunct applied at a one-vote state. -/
theorem C7_witness :
    (∀ r ∈ ([(1, 1)] : List (ℤ × ℤ)), 1 ≤ r.2) ∧
    (calculate_ranked_results [1] [(1, 1)] 1).Pairwise (fun a b =>
      match a.average_rank, b.average_rank with
      | none, some _ => False
      | some x, some y => x ≤ y
      | _, _ => True) :=
  ⟨by decide, C7_ranked_results.2.1 [1] [(1, 1)] 1 (by decide)⟩

/-- C8: for every tournament_tiers category state whose recorded tier
indices lie in `[0, len(tier_options))` (as the write paths enforce), each
item's `average_tier` is the 2-decimal-rounded mean of its recorded tier
indices excluding those equal to the last configured tier position, and null
when no countable indices exist; in particular with `tier_options
["S","A","B"]` and every recorded index 2, the average is null. -/
theorem C8_tier_results :
    (∀ (items : List TierItem) (rows : List (ℤ × ℤ)) (total : ℕ)
        (topts : Option (List String)),
      (∀ r ∈ rows, 0 ≤ r.2 ∧
        r.2 < ((topts.getD ["X", "S+", "S", "A", "B", "C", "D"]).length : ℤ)) →
      ∀ res ∈ calculate_tournament_tiers_results items rows total topts,
        res.average_rank =
          (if ((rows.filter (fun r => r.1 = res.item_id)).map (·.2)).filter
              (fun x => ¬ x = ((topts.getD
                ["X", "S+", "S", "A", "B", "C", "D"]).length : ℤ) - 1) = []
           then none
           else some (round2
             ((((((rows.filter (fun r => r.1 = res.item_id)).map (·.2)).filter
                (fun x => ¬ x = ((topts.getD
                  ["X", "S+", "S", "A", "B", "C", "D"]).length : ℤ) - 1)).sum : ℤ) : ℚ) /
              (((((rows.filter (fun r => r.1 = res.item_id)).map (·.2)).filter
                (fun x => ¬ x = ((topts.getD
                  ["X", "S+", "S", "A", "B", "C", "D"]).length : ℤ) - 1)).length : ℚ)))))) ∧
    calculate_tournament_tiers_results [⟨1, "a", none⟩] [(1, 2), (1, 2)] 2
        (some ["S", "A", "B"]) =
      [{ item_id := 1, item_name := "a", vote_count := 2, percentage := 100,
         average_rank := none,
         tier_distribution := [("S", 0), ("A", 0), ("B", 2)] }] := by
  constructor
  · intro items rows total topts h res hres
    simp only [calculate_tournament_tiers_results] at hres
    rw [List.mem_mergeSort] at hres
    obtain ⟨item, hitem, rfl⟩ := List.mem_map.mp hres
    have hid : (tier_entry
        (rows.foldl (fun m r => multidict_append m r.1 r.2) []) total
        (topts.getD ["X", "S+", "S", "A", "B", "C", "D"]) item).item_id =
        item.id := rfl
    rw [hid]
    simp only [tier_entry]
    rw [ranks_eq]
    have hcongr : ((rows.filter (fun r => r.1 = item.id)).map (·.2)).filter
        (fun t => t < ((topts.getD
          ["X", "S+", "S", "A", "B", "C", "D"]).length : ℤ) - 1) =
        ((rows.filter (fun r => r.1 = item.id)).map (·.2)).filter
        (fun x => ¬ x = ((topts.getD
          ["X", "S+", "S", "A", "B", "C", "D"]).length : ℤ) - 1) := by
      apply List.filter_congr
      intro x hx
      obtain ⟨r, hr, rfl⟩ := List.mem_map.mp hx
      have hb := h r (List.mem_filter.mp hr).1
      apply decide_eq_decide.mpr
      omega
    rw [hcongr]
    by_cases hnil : (rows.filter (fun r => r.1 = item.id)).map (·.2) = []
    · simp [hnil]
    · have hne : ((rows.filter (fun r => r.1 = item.id)).map (·.2)).isEmpty =
          false := by simp [List.isEmpty_iff, hnil]
      rw [hne]
      simp only [Bool.false_eq_true, if_false, List.isEmpty_iff]
  · simp only [calculate_tournament_tiers_results]
    have hmap : ([⟨1, "a", none⟩] : List TierItem).map (tier_entry
        (([(1, 2), (1, 2)] : List (ℤ × ℤ)).foldl
          (fun m r => multidict_append m r.1 r.2) []) 2
        ((some ["S", "A", "B"]).getD ["X", "S+", "S", "A", "B", "C", "D"])) =
        [{ item_id := 1, item_name := "a", vote_count := 2, percentage := 100,
           average_rank := none,
           tier_distribution := [("S", 0), ("A", 0), ("B", 2)] }] := by
      norm_num [tier_entry, multidict_get, multidict_append, assoc_upsert,
        assoc_modify, assoc_find, List.find?, List.foldl, dict_get, dict_set,
        List.enum, List.enumFrom, calculate_percentage, round2, roundHalfEven]
    rw [hmap]
    exact List.mergeSort_singleton _


/-- C8 witness: the theorem applied at the category with `tier_options`
`["S","A","B"]` and two recorded sentinel votes. -/
theorem C8_witness :
    ((∀ r ∈ ([(1, 2), (1, 2)] : List (ℤ × ℤ)), 0 ≤ r.2 ∧
        r.2 < (((some ["S", "A", "B"] : Option (List String)).getD
          ["X", "S+", "S", "A", "B", "C", "D"]).length : ℤ)) ∧
      ({ item_id := 1, item_name := "a", vote_count := 2, percentage := 100,
         average_rank := none,
         tier_distribution := [("S", 0), ("A", 0), ("B", 2)] } : TierResult) ∈
        calculate_tournament_tiers_results [⟨1, "a", none⟩] [(1, 2), (1, 2)] 2
          (some ["S", "A", "B"])) ∧
    ({ item_id := 1, item_name := "a", vote_count := 2, percentage := 100,
       average_rank := none,
       tier_distribution := [("S", 0), ("A", 0), ("B", 2)] } : TierResult).average_rank =
      none := by
  have hm : ({ item_id := 1, item_name := "a", vote_count := 2,
               percentage := 100, average_rank := none,
               tier_distribution := [("S", 0), ("A", 0), ("B", 2)] } :
      TierResult) ∈
      calculate_tournament_tiers_results [⟨1, "a", none⟩] [(1, 2), (1, 2)] 2
        (some ["S", "A", "B"]) := by
    rw [C8_tier_results.2]
    exact List.mem_singleton.mpr rfl
  exact ⟨⟨by decide, hm⟩, C8_tier_results.1 _ _ _ _ (by decide) _ hm⟩

end SplatVote
